import Mathlib

/-!
# JLR_L322 dashboard adapter (stm32-vcu): shallow embedding

Embedding of `src/src/JLR_L322.cpp` and `src/include/JLR_L322.h`.

* The adapter object is the record `JLR_L322` of its four private fields.
* The CAN transport behind `can->Send` is the list of frames handed to it,
  oldest first; it is threaded through the member functions together with
  the adapter's fields.
* The parameter store (`Param::GetInt`, `Param::GetFloat`, `Param::GetBool`)
  and the digital input `DigIo::t15_digi` are read-only inputs.
* `uint16_t` and `int8_t` stores are written with explicit reductions.
* `float`/`double` values are IEEE-754 bit patterns, decoded exactly.
-/

namespace JLR

/-! ## Machine integers -/

/-- Store of an `int` into a `uint16_t` object: reduction modulo `2^16`. -/
def toUInt16 (x : Int) : Nat := (x % 65536).toNat

/-- Store of an `int` into an `int8_t` object: two's complement narrowing. -/
def toInt8 (x : Int) : Int := (x + 128) % 256 - 128

/-- Store of an `int` into a `uint8_t` object: reduction modulo `2^8`. -/
def toUInt8 (x : Nat) : Nat := x % 256

/-- Modelled from the spec: the `MAX` macro of `my_math.h`, which is not part
of the sources at hand; the spec describes its use as the floor of the clamp
of the raw speed to `[750, 6000]`. -/
def MAX (a b : Int) : Int := if a > b then a else b

/-- Modelled from the spec: the `MIN` macro of `my_math.h`, which is not part
of the sources at hand; the spec describes its use as the ceiling of the clamp
of the raw speed to `[750, 6000]`. -/
def MIN (a b : Int) : Int := if a < b then a else b

/-! ## IEEE-754 values

`Param::GetFloat` returns a `float` (binary32) and the literal `11.6` is a
`double` (binary64).  The comparison `battV < 11.6` promotes the `float`
exactly and compares exactly, so it is modelled on the exact values, all
scaled by `2^1074` so that every finite binary32 and binary64 value is an
integer. -/

/-- Decoded IEEE-754 datum: not-a-number, an infinity, or a finite value given
as the integer `value * 2^1074`. -/
inductive FpVal where
  | nan : FpVal
  | inf (neg : Bool) : FpVal
  | fin (scaled : Int) : FpVal
  deriving DecidableEq, Repr

/-- Sign bit of a binary32 bit pattern. -/
def f32Sign (bits : Nat) : Bool := (bits / 2 ^ 31) % 2 == 1

/-- Biased exponent field of a binary32 bit pattern. -/
def f32Exp (bits : Nat) : Nat := (bits / 2 ^ 23) % 256

/-- Fraction field of a binary32 bit pattern. -/
def f32Frac (bits : Nat) : Nat := bits % 2 ^ 23

/-- Magnitude of a finite binary32, times `2^149`. -/
def f32Mag (bits : Nat) : Nat :=
  if f32Exp bits = 0 then f32Frac bits
  else (2 ^ 23 + f32Frac bits) * 2 ^ (f32Exp bits - 1)

/-- Value of a binary32 bit pattern. -/
def decodeF32 (bits : Nat) : FpVal :=
  if f32Exp bits = 255 then
    if f32Frac bits = 0 then FpVal.inf (f32Sign bits) else FpVal.nan
  else
    let mag : Int := (f32Mag bits * 2 ^ 925 : Nat)
    FpVal.fin (if f32Sign bits then -mag else mag)

/-- Sign bit of a binary64 bit pattern. -/
def f64Sign (bits : Nat) : Bool := (bits / 2 ^ 63) % 2 == 1

/-- Biased exponent field of a binary64 bit pattern. -/
def f64Exp (bits : Nat) : Nat := (bits / 2 ^ 52) % 2048

/-- Fraction field of a binary64 bit pattern. -/
def f64Frac (bits : Nat) : Nat := bits % 2 ^ 52

/-- Magnitude of a finite binary64, times `2^1074`. -/
def f64Mag (bits : Nat) : Nat :=
  if f64Exp bits = 0 then f64Frac bits
  else (2 ^ 52 + f64Frac bits) * 2 ^ (f64Exp bits - 1)

/-- Value of a binary64 bit pattern. -/
def decodeF64 (bits : Nat) : FpVal :=
  if f64Exp bits = 2047 then
    if f64Frac bits = 0 then FpVal.inf (f64Sign bits) else FpVal.nan
  else
    let mag : Int := (f64Mag bits : Nat)
    FpVal.fin (if f64Sign bits then -mag else mag)

/-- The IEEE-754 comparison `a < b`: false as soon as one side is a NaN. -/
def FpVal.lt : FpVal → FpVal → Bool
  | FpVal.nan, _ => false
  | _, FpVal.nan => false
  | FpVal.inf na, FpVal.inf nb => na && !nb
  | FpVal.inf na, FpVal.fin _ => na
  | FpVal.fin _, FpVal.inf nb => !nb
  | FpVal.fin x, FpVal.fin y => decide (x < y)

/-- An IEEE-754 datum lies strictly below the rational `q`: never for a NaN,
for an infinity exactly when it is the negative one, and for a finite datum
when its exact value does. -/
def FpVal.belowRat (v : FpVal) (q : ℚ) : Prop :=
  match v with
  | FpVal.nan => False
  | FpVal.inf neg => neg = true
  | FpVal.fin scaled => (scaled : ℚ) / 2 ^ 1074 < q

/-- The `double` literal `11.6` of `Msg17E49220`: the binary64 nearest to
`58/5`, bit pattern `0x4027333333333333`. -/
def lit_11_6 : Nat := 0x4027333333333333

/-! ## Collaborators -/

/-- One frame handed to `CanHardware::Send`. -/
structure CanFrame where
  canId : Nat
  bytes : List Nat
  deriving DecidableEq, Repr

/-- The values the adapter reads from the parameter store. `uaux` is the bit
pattern of the `float` returned by `Param::GetFloat(Param::uaux)`. -/
structure Param where
  opmode : Int
  dir : Int
  uaux : Nat
  din_start : Bool
  deriving DecidableEq, Repr

/-! ## The adapter -/

/-- The object `JLR_L322`: its private fields, and `can`, the frames the
transport behind the pointer `can` has been handed so far. -/
structure JLR_L322 where
  speed : Nat
  BrakeOn : Bool
  AbsCANalive : Bool
  SendCAN : Bool
  can : List CanFrame
  deriving DecidableEq, Repr

/-- Modelled from the spec: `CanHardware::Send(id, bytes, length)`, the
transport's `send(id, bytes, length)`, which is not part of the sources at
hand; it accepts the first `length` bytes as one outbound frame. -/
def Send (canId : Nat) (bytes : List Nat) (len : Nat) (s : JLR_L322) : JLR_L322 :=
  { s with can := s.can ++ [⟨canId, bytes.take len⟩] }

/-- Member function `JLR_L322::SetRevCounter(int s)`, whose body is the store
`speed = s` into the `uint16_t` field. -/
def SetRevCounter (v : Int) (s : JLR_L322) : JLR_L322 :=
  { s with speed := toUInt16 v }

/-- Member function `JLR_L322::Ready`: the ignition input. -/
def Ready (t15_digi : Bool) : Bool := t15_digi

/-- Member function `JLR_L322::Start`: the start request of the parameter store. -/
def Start (p : Param) : Bool := p.din_start

/-- Member function `JLR_L322::Msg17EC0010`. -/
def Msg17EC0010 (s : JLR_L322) : JLR_L322 :=
  Send 0x17EC0010 [0x03, 0xE0, 0x23] 3 s

/-- Member function `JLR_L322::Msg17C404B0`. -/
def Msg17C404B0 (s : JLR_L322) : JLR_L322 :=
  Send 0x17C404B0 [0x10, 0x32, 0x00, 0x0B, 0xFF, 0xC0, 0x00] 7 s

/-- The local `speed_input` of `Msg17BDFFE0` after the two clamping stores. -/
def speedClamped (speed : Nat) : Nat :=
  let speed_input : Nat := toUInt16 speed
  let speed_input : Nat := toUInt16 (MAX 750 speed_input)
  toUInt16 (MIN 6000 speed_input)

/-- The `int` product `speed_input * 480` of `Msg17BDFFE0`. -/
def speedProduct (speed : Nat) : Int := (speedClamped speed : Int) * 480

/-- The local `speed_input` of `Msg17BDFFE0` after the scaling store
`speed_input = (((speed_input * 480)/500) + 8274)`. -/
def speedScaled (speed : Nat) : Nat :=
  toUInt16 (Int.tdiv (speedProduct speed) 500 + 8274)

/-- The array `bytes` of `Msg17BDFFE0`. -/
def bytes17BDFFE0 (speed : Nat) : List Nat :=
  [0x40, 0x00,
   toUInt8 ((speedScaled speed >>> 8) &&& 0xFF),
   toUInt8 (speedScaled speed &&& 0xFF),
   0x07]

/-- Member function `JLR_L322::Msg17BDFFE0`. `MOD_RUN` is the enumerator of the operating
modes, declared outside the sources at hand. -/
def Msg17BDFFE0 (MOD_RUN : Int) (p : Param) (s : JLR_L322) : JLR_L322 :=
  let opmode := p.opmode
  let bytes := bytes17BDFFE0 s.speed
  if opmode = MOD_RUN then Send 0x17BDFFE0 bytes 5 s else s

/-- Member function `JLR_L322::Msg17E49220`. -/
def Msg17E49220 (p : Param) (s : JLR_L322) : JLR_L322 :=
  let battV := decodeF32 p.uaux
  let b2 : Nat := if FpVal.lt battV (decodeF64 lit_11_6) then 0x80 else 0x00
  Send 0x17E49220 [0x00, 0x00, b2, 0x00, 0x19, 0xC8, 0x00, 0x79] 8 s

/-- Member function `JLR_L322::Msg17D80420`. -/
def Msg17D80420 (MOD_RUN : Int) (p : Param) (s : JLR_L322) : JLR_L322 :=
  let opmode := p.opmode
  let b5 : Nat := if opmode = MOD_RUN then 0x80 else 0xA0
  Send 0x17D80420 [0x3C, 0x7D, 0x40, 0xFB, 0xFF, b5] 6 s

/-- Member function `JLR_L322::Msg17E80420`. -/
def Msg17E80420 (s : JLR_L322) : JLR_L322 :=
  Send 0x17E80420 [0x3F, 0x00, 0x00, 0x28, 0x00, 0x00] 6 s

/-- The array `bytes` of `Msg0979BAB0` after the `switch`. -/
def bytes0979BAB0 (gear : Int) (BrakeOn : Bool) : List Nat :=
  if gear = -1 then
    if BrakeOn then [0x87, 0x80, 0x00, 0x87, 0x1F, 0xF7, 0xFF, 0x0C]
    else [0x87, 0x80, 0x00, 0xC7, 0x1F, 0x77, 0xFF, 0x0C]
  else if gear = 0 then
    if BrakeOn then [0x80, 0x80, 0x00, 0x87, 0x1F, 0xF7, 0xFF, 0x0C]
    else [0x80, 0x80, 0x00, 0xC7, 0x1F, 0x77, 0xFF, 0x0C]
  else if gear = 1 then
    if BrakeOn then [0x89, 0x80, 0x00, 0x87, 0x1F, 0xF7, 0xFF, 0x0C]
    else [0x89, 0x80, 0x00, 0xC7, 0x1F, 0x77, 0xFF, 0x0C]
  else if gear = 2 then
    if BrakeOn then [0x88, 0x80, 0x00, 0x87, 0x1F, 0xF7, 0xFF, 0x0C]
    else [0x88, 0x80, 0x00, 0xC7, 0x1F, 0x77, 0xFF, 0x0C]
  else if gear = 3 then
    if BrakeOn then [0x89, 0x80, 0x00, 0x87, 0x1F, 0xF7, 0xFF, 0x3C]
    else [0x89, 0x80, 0x00, 0xB7, 0x1F, 0x77, 0xFF, 0x3C]
  else [0x00, 0x00, 0x00, 0x00, 0x00, 0x00, 0x00, 0x00]

/-- Member function `JLR_L322::Msg0979BAB0(int8_t gear)`. -/
def Msg0979BAB0 (gear : Int) (s : JLR_L322) : JLR_L322 :=
  Send 0x0979BAB0 (bytes0979BAB0 gear s.BrakeOn) 8 s

/-- Member function `JLR_L322::Task10Ms`. The `int` read from `Param::dir` is narrowed to the
`int8_t` parameter of `Msg0979BAB0` at the call. -/
def Task10Ms (MOD_RUN : Int) (p : Param) (s : JLR_L322) : JLR_L322 :=
  if s.SendCAN = true then
    let s := Msg17EC0010 s
    let s := Msg17C404B0 s
    let s := Msg17BDFFE0 MOD_RUN p s
    let s := Msg17E49220 p s
    let s := Msg17D80420 MOD_RUN p s
    let s := Msg17E80420 s
    Msg0979BAB0 (toInt8 p.dir) s
  else s

/-- Member function `JLR_L322::Task100Ms`; `t15_digi` is the value of `DigIo::t15_digi.Get()`. -/
def Task100Ms (t15_digi : Bool) (s : JLR_L322) : JLR_L322 :=
  let s := if s.AbsCANalive = true || t15_digi then { s with SendCAN := true }
           else { s with SendCAN := false }
  { s with AbsCANalive := false }

/-- Member function `JLR_L322::DecodeCAN(int id, uint32_t* data)`. `data` is the memory behind
the pointer, viewed as bytes; the result is `none` when the read of
`bytes[6]` falls outside of it. -/
def DecodeCAN (id : Int) (data : List Nat) (s : JLR_L322) : Option JLR_L322 :=
  let bytes := data
  if id = 0x0BD5FDF0 then
    match bytes.get? 6 with
    | none => none
    | some b6 =>
      let s := if b6 &&& 1 ≠ 0 then { s with BrakeOn := true }
               else { s with BrakeOn := false }
      some { s with AbsCANalive := true }
  else some s

/-! ## Call sequences -/

/-- Modelled from the spec: one call of the adapter's public interface. The
callers (the periodic scheduler, the transport delivering inbound frames, the
controller setting the speed) are not part of the sources at hand; the spec
has them invoke the handlers one at a time, from one thread of control. -/
inductive Call where
  | task10Ms (p : Param) : Call
  | task100Ms (t15_digi : Bool) : Call
  | decodeCAN (id : Int) (data : List Nat) : Call
  | setRevCounter (v : Int) : Call
  deriving DecidableEq, Repr

/-- The effect of one call on the adapter; `none` when `DecodeCAN` has none. -/
def call (MOD_RUN : Int) (c : Call) (s : JLR_L322) : Option JLR_L322 :=
  match c with
  | Call.task10Ms p => some (Task10Ms MOD_RUN p s)
  | Call.task100Ms t15_digi => some (Task100Ms t15_digi s)
  | Call.decodeCAN id data => DecodeCAN id data s
  | Call.setRevCounter v => some (SetRevCounter v s)

/-- The effect of a sequence of calls, first call first. -/
def run (MOD_RUN : Int) (cs : List Call) (s : JLR_L322) : Option JLR_L322 :=
  match cs with
  | [] => some s
  | c :: rest =>
    match call MOD_RUN c s with
    | none => none
    | some s1 => run MOD_RUN rest s1

/-- The call is a coarse tick. -/
def Call.isTask100Ms (c : Call) : Bool :=
  match c with
  | Call.task100Ms _ => true
  | _ => false

/-- The call delivers an inbound frame on the monitored identifier. -/
def Call.isAbsFrame (c : Call) : Bool :=
  match c with
  | Call.decodeCAN id _ => decide (id = 0x0BD5FDF0)
  | _ => false

/-- The call is a delivery whose read of `bytes[6]` falls outside the buffer. -/
def Call.faults (c : Call) : Bool :=
  match c with
  | Call.decodeCAN id data => decide (id = 0x0BD5FDF0) && decide (data.length ≤ 6)
  | _ => false

/-! ## Auxiliary facts -/

/-- Narrowing to `int8_t` keeps every value of the `int8_t` range. -/
theorem toInt8_of_range (x : Int) (h1 : -128 ≤ x) (h2 : x ≤ 127) : toInt8 x = x := by
  unfold toInt8
  omega

/-- The gear payload has eight bytes in every branch of the `switch`. -/
theorem length_bytes0979BAB0 (gear : Int) (b : Bool) : (bytes0979BAB0 gear b).length = 8 := by
  unfold bytes0979BAB0
  split_ifs <;> rfl

/-- The tachometer payload has five bytes. -/
theorem length_bytes17BDFFE0 (speed : Nat) : (bytes17BDFFE0 speed).length = 5 := rfl

/-- Taking as many elements as a list has returns the list. -/
theorem take_of_length {α : Type} (l : List α) (n : Nat) (h : l.length = n) : l.take n = l := by
  subst h
  exact List.take_length l

/-- A value below `2^16` survives the store into a `uint16_t`. -/
theorem toUInt16_of_lt (x : Nat) (h : x < 65536) : toUInt16 (x : Int) = x := by
  unfold toUInt16
  omega

/-- The two clamping stores compute the clamp of a stored speed to `[750, 6000]`. -/
theorem speedClamped_eq (speed : Nat) (h : speed < 65536) :
    speedClamped speed = max 750 (min 6000 speed) := by
  unfold speedClamped MAX MIN
  simp only [toUInt16_of_lt speed h]
  by_cases h1 : (750 : Int) > (speed : Int)
  · have e : toUInt16 (750 : Int) = 750 := by decide
    simp only [h1, if_true, e]
    have h2 : ((6000 : Int) < ((750 : Nat) : Int)) = False := by simp
    simp only [h2, if_false]
    rw [toUInt16_of_lt 750 (by omega)]
    omega
  · simp only [h1, if_false, toUInt16_of_lt speed h]
    by_cases h2 : (6000 : Int) < (speed : Int)
    · simp only [h2, if_true]
      have e : toUInt16 (6000 : Int) = 6000 := by decide
      rw [e]
      omega
    · simp only [h2, if_false, toUInt16_of_lt speed h]
      omega

/-- The scaling store does not wrap: it holds `clamp * 480 / 500 + 8274`. -/
theorem speedScaled_eq (speed : Nat) (h : speed < 65536) :
    speedScaled speed = max 750 (min 6000 speed) * 480 / 500 + 8274 := by
  unfold speedScaled speedProduct
  rw [speedClamped_eq speed h]
  generalize hc : max 750 (min 6000 speed) = c
  have hc1 : c ≤ 6000 := by omega
  have e : Int.tdiv ((c : Int) * 480) 500 + 8274 = ((c * 480 / 500 + 8274 : Nat) : Int) := by
    rw [Int.tdiv_eq_ediv (by positivity) (by norm_num)]
    push_cast
    rfl
  rw [e, toUInt16_of_lt]
  omega

/-- The expression `(v >> 8) & 0xFF` is the high byte of a 16-bit value. -/
theorem byte_hi (v : Nat) (h : v < 65536) : toUInt8 ((v >>> 8) &&& 0xFF) = v / 256 := by
  unfold toUInt8
  have e : (v >>> 8) &&& 0xFF = (v >>> 8) % 2 ^ 8 := Nat.and_pow_two_sub_one_eq_mod _ 8
  rw [e, Nat.shiftRight_eq_div_pow]
  omega

/-- The expression `v & 0xFF` is the low byte of a value. -/
theorem byte_lo (v : Nat) : toUInt8 (v &&& 0xFF) = v % 256 := by
  unfold toUInt8
  have e : v &&& 0xFF = v % 2 ^ 8 := Nat.and_pow_two_sub_one_eq_mod _ 8
  rw [e]
  omega

/-- The tachometer payload in closed form. -/
theorem bytes17BDFFE0_eq (speed : Nat) (h : speed < 65536) :
    bytes17BDFFE0 speed =
      [0x40, 0x00, (max 750 (min 6000 speed) * 480 / 500 + 8274) / 256,
        (max 750 (min 6000 speed) * 480 / 500 + 8274) % 256, 0x07] := by
  unfold bytes17BDFFE0
  rw [byte_hi _ (by rw [speedScaled_eq speed h]; omega), byte_lo, speedScaled_eq speed h]

/-- A fine tick writes none of the four fields of the adapter. -/
theorem Task10Ms_fields (MOD_RUN : Int) (p : Param) (s : JLR_L322) :
    (Task10Ms MOD_RUN p s).speed = s.speed ∧
    (Task10Ms MOD_RUN p s).BrakeOn = s.BrakeOn ∧
    (Task10Ms MOD_RUN p s).AbsCANalive = s.AbsCANalive ∧
    (Task10Ms MOD_RUN p s).SendCAN = s.SendCAN := by
  unfold Task10Ms
  split_ifs with h
  · simp only [Msg0979BAB0, Msg17E80420, Msg17D80420, Msg17E49220, Msg17BDFFE0, Msg17C404B0,
      Msg17EC0010, Send]
    split_ifs <;> exact ⟨rfl, rfl, rfl, rfl⟩
  · exact ⟨rfl, rfl, rfl, rfl⟩

/-- The coarse tick in closed form. -/
theorem Task100Ms_eq (t15_digi : Bool) (s : JLR_L322) :
    Task100Ms t15_digi s =
      { s with SendCAN := (s.AbsCANalive || t15_digi), AbsCANalive := false } := by
  cases ha : s.AbsCANalive <;> cases t15_digi <;> simp [Task100Ms, ha]

/-- The decoder on the monitored identifier, when byte 6 can be read. -/
theorem DecodeCAN_abs (data : List Nat) (b6 : Nat) (s : JLR_L322)
    (h6 : data.get? 6 = some b6) :
    DecodeCAN 0x0BD5FDF0 data s =
      some { s with BrakeOn := b6.testBit 0, AbsCANalive := true } := by
  unfold DecodeCAN
  simp only [if_true, h6]
  rw [Nat.testBit_zero, Nat.and_one_is_mod]
  rcases Nat.mod_two_eq_zero_or_one b6 with h | h <;> simp [h]

/-! ### The comparison `battV < 11.6` -/

/-- Monotonicity of a product of two powers of two in both exponents. -/
theorem two_pow_mul_le (a b c d : Nat) (h1 : a ≤ c) (h2 : b ≤ d) :
    2 ^ a * 2 ^ b ≤ 2 ^ c * 2 ^ d :=
  Nat.mul_le_mul (Nat.pow_le_pow_right (by omega) h1) (Nat.pow_le_pow_right (by omega) h2)

/-- The fraction field has 23 bits. -/
theorem f32Frac_lt (bits : Nat) : f32Frac bits < 2 ^ 23 :=
  Nat.mod_lt _ (by positivity)

/-- A finite binary32 magnitude is below `8` or a multiple of `2^-20`. -/
theorem f32Mag_cases (bits : Nat) :
    f32Mag bits * 2 ^ 925 < 2 ^ 52 * 2 ^ 1025 ∨
      ∃ k : Nat, f32Mag bits * 2 ^ 925 = k * 2 ^ 29 * 2 ^ 1025 := by
  have hF := f32Frac_lt bits
  unfold f32Mag
  by_cases h0 : f32Exp bits = 0
  · left
    rw [if_pos h0]
    exact lt_of_lt_of_le (Nat.mul_lt_mul_of_pos_right hF (by positivity))
      (two_pow_mul_le 23 925 52 1025 (by omega) (by omega))
  · rw [if_neg h0]
    by_cases hs : f32Exp bits - 1 ≤ 128
    · left
      have h1 : 2 ^ 23 + f32Frac bits < 2 ^ 24 := by
        have : (2 : Nat) ^ 24 = 2 ^ 23 + 2 ^ 23 := by norm_num
        omega
      have h2 : 2 ^ (f32Exp bits - 1) ≤ 2 ^ 128 := Nat.pow_le_pow_right (by norm_num) hs
      calc (2 ^ 23 + f32Frac bits) * 2 ^ (f32Exp bits - 1) * 2 ^ 925
          < 2 ^ 24 * 2 ^ 128 * 2 ^ 925 := by
            apply Nat.mul_lt_mul_of_pos_right _ (by positivity)
            exact Nat.mul_lt_mul_of_lt_of_le h1 h2 (by positivity)
        _ = 2 ^ 52 * 2 ^ 1025 := by
            rw [← pow_add, ← pow_add, ← pow_add]
    · right
      refine ⟨(2 ^ 23 + f32Frac bits) * 2 ^ (f32Exp bits - 1 - 129), ?_⟩
      have e : f32Exp bits - 1 = (f32Exp bits - 1 - 129) + 129 := by omega
      have e2 : (2 : Nat) ^ (f32Exp bits - 1) = 2 ^ (f32Exp bits - 1 - 129) * 2 ^ 129 := by
        rw [← pow_add, ← e]
      have e3 : (2 : Nat) ^ 129 * 2 ^ 925 = 2 ^ 29 * 2 ^ 1025 := by
        rw [← pow_add, ← pow_add]
      rw [e2, mul_assoc, mul_assoc, mul_assoc, mul_assoc, e3]

/-- No finite binary32 lies between the `double` literal `11.6` and `58/5`. -/
theorem lt_lit_iff (x : Nat) (h : x < 2 ^ 52 * 2 ^ 1025 ∨ ∃ k : Nat, x = k * 2 ^ 29 * 2 ^ 1025) :
    x < 6530219459687219 * 2 ^ 1025 ↔ 5 * x < 58 * (2 ^ 49 * 2 ^ 1025) := by
  generalize hP : (2 : Nat) ^ 1025 = P at h ⊢
  have hPpos : 0 < P := by rw [← hP]; positivity
  rcases h with h | ⟨k, rfl⟩
  · have a : x < 6530219459687219 * P :=
      lt_of_lt_of_le h (Nat.mul_le_mul_right P (by norm_num))
    have b : 5 * x < 58 * (2 ^ 49 * P) := by
      have : 5 * x < 5 * (2 ^ 52 * P) := by omega
      have e : 5 * (2 ^ 52 * P) ≤ 58 * (2 ^ 49 * P) := by
        rw [← mul_assoc, ← mul_assoc]
        exact Nat.mul_le_mul_right P (by norm_num)
      omega
    exact ⟨fun _ => b, fun _ => a⟩
  · have e1 : 5 * (k * 2 ^ 29 * P) = (5 * (k * 2 ^ 29)) * P := by ring
    have e2 : 58 * (2 ^ 49 * P) = (58 * 2 ^ 49) * P := by ring
    rw [e1, e2, Nat.mul_lt_mul_right hPpos, Nat.mul_lt_mul_right hPpos]
    norm_num
    omega

section IEEE

set_option exponentiation.threshold 2048

/-- The literal decodes to `6530219459687219 * 2^-49`. -/
theorem decodeF64_lit_11_6 :
    decodeF64 lit_11_6 = FpVal.fin ((6530219459687219 * 2 ^ 1025 : Nat) : Int) := by
  decide

/-- The `float` 12.0 is not below the literal. -/
theorem battV_12_0 : FpVal.lt (decodeF32 0x41400000) (decodeF64 lit_11_6) = false := by
  decide

/-- The `float` nearest to 11.6, `0x4139999A`, is not below the literal. -/
theorem battV_nearest_11_6 :
    FpVal.lt (decodeF32 0x4139999A) (decodeF64 lit_11_6) = false := by
  decide

/-- The `float` just below 11.6, `0x41399999`, is below the literal. -/
theorem battV_pred_11_6 :
    FpVal.lt (decodeF32 0x41399999) (decodeF64 lit_11_6) = true := by
  decide

end IEEE

/-- The literal is the binary64 nearest to `58/5`: it lies below it, by
`1 / (5 * 2^49)`, less than half a unit in the last place, `2^-50`. -/
theorem lit_11_6_nearest :
    6530219459687219 * 5 < 58 * 2 ^ 49 ∧
      (58 * 2 ^ 49 - 6530219459687219 * 5) * 2 ^ 50 < 5 * 2 ^ 49 := by
  decide

/-- The comparison `battV < 11.6` of `Msg17E49220` holds exactly when the
`float` lies strictly below `58/5`. -/
theorem battV_lt_iff (bits : Nat) :
    FpVal.lt (decodeF32 bits) (decodeF64 lit_11_6) = true ↔
      FpVal.belowRat (decodeF32 bits) (58 / 5) := by
  rw [decodeF64_lit_11_6]
  unfold decodeF32
  by_cases hE : f32Exp bits = 255
  · rw [if_pos hE]
    by_cases hF : f32Frac bits = 0
    · rw [if_pos hF]
      simp [FpVal.lt, FpVal.belowRat]
    · rw [if_neg hF]
      simp [FpVal.lt, FpVal.belowRat]
  · rw [if_neg hE]
    have key := lt_lit_iff _ (f32Mag_cases bits)
    generalize f32Mag bits * 2 ^ 925 = x at key ⊢
    have hq : ∀ z : Int, ((z : ℚ) / 2 ^ 1074 < 58 / 5) ↔ 5 * z < 58 * (2 ^ 49 * 2 ^ 1025) := by
      intro z
      rw [div_lt_div_iff₀ (by positivity) (by norm_num)]
      have e : (2 : ℚ) ^ (49 + 1025) = 2 ^ 49 * 2 ^ 1025 := pow_add 2 49 1025
      rw [e]
      constructor
      · intro h
        have h2 : ((5 * z : Int) : ℚ) < ((58 * (2 ^ 49 * 2 ^ 1025) : Int) : ℚ) := by
          simp only [Int.cast_mul, Int.cast_pow, Int.cast_ofNat]
          linarith
        exact_mod_cast h2
      · intro h
        have h2 : ((5 * z : Int) : ℚ) < ((58 * (2 ^ 49 * 2 ^ 1025) : Int) : ℚ) := by
          exact_mod_cast h
        simp only [Int.cast_mul, Int.cast_pow, Int.cast_ofNat] at h2
        linarith
    simp only [FpVal.lt, FpVal.belowRat, decide_eq_true_eq, hq]
    cases f32Sign bits
    · simp only [Bool.false_eq_true, if_false]
      have k1 : ((x : Nat) : Int) < ((6530219459687219 * 2 ^ 1025 : Nat) : Int) ↔
          x < 6530219459687219 * 2 ^ 1025 := Int.ofNat_lt
      have k2 : 5 * ((x : Nat) : Int) < 58 * (2 ^ 49 * 2 ^ 1025) ↔
          5 * x < 58 * (2 ^ 49 * 2 ^ 1025) := by
        constructor
        · intro h; exact_mod_cast h
        · intro h; exact_mod_cast h
      rw [k1, k2]
      exact key
    · simp only [if_true]
      have p1 : (0 : Int) < ((6530219459687219 * 2 ^ 1025 : Nat) : Int) := by positivity
      have p2 : (0 : Int) < 58 * (2 ^ 49 * 2 ^ 1025) := by positivity
      have n : (0 : Int) ≤ ((x : Nat) : Int) := Int.ofNat_nonneg x
      constructor
      · intro _; linarith
      · intro _; linarith

/-! ### Calls, sequences and the remaining encoders -/

/-- The decoder never writes `SendCAN`, `speed` or the transport. -/
theorem DecodeCAN_fields (id : Int) (data : List Nat) (s s1 : JLR_L322)
    (h : DecodeCAN id data s = some s1) :
    s1.SendCAN = s.SendCAN ∧ s1.speed = s.speed ∧ s1.can = s.can := by
  unfold DecodeCAN at h
  by_cases hid : id = 0x0BD5FDF0
  · simp only [hid, if_true] at h
    cases h6 : data.get? 6 with
    | none =>
      rw [h6] at h
      cases h
    | some b6 =>
      simp only [h6, Option.some.injEq] at h
      subst h
      split_ifs <;> exact ⟨rfl, rfl, rfl⟩
  · simp only [hid, if_false, Option.some.injEq] at h
    subst h
    exact ⟨rfl, rfl, rfl⟩

/-- The decoder ignores every identifier but the monitored one. -/
theorem DecodeCAN_other (id : Int) (data : List Nat) (s : JLR_L322)
    (hid : id ≠ 0x0BD5FDF0) : DecodeCAN id data s = some s := by
  simp [DecodeCAN, hid]

/-- The decoder has no result when `bytes[6]` lies outside the buffer. -/
theorem DecodeCAN_short (data : List Nat) (s : JLR_L322) (h : data.length ≤ 6) :
    DecodeCAN 0x0BD5FDF0 data s = none := by
  have h6 : data.get? 6 = none := by
    rw [List.get?_eq_getElem?]
    exact List.getElem?_eq_none h
  unfold DecodeCAN
  simp only [if_true, h6]

/-- The decoder has a result when the identifier is not the monitored one or
`bytes[6]` lies inside the buffer. -/
theorem DecodeCAN_isSome (id : Int) (data : List Nat) (s : JLR_L322)
    (h : id ≠ 0x0BD5FDF0 ∨ 6 < data.length) :
    ∃ s1 : JLR_L322, DecodeCAN id data s = some s1 := by
  by_cases hid : id = 0x0BD5FDF0
  · have hlen : 6 < data.length := by
      rcases h with h | h
      · exact absurd hid h
      · exact h
    have h6 : data.get? 6 = some (data.get ⟨6, hlen⟩) := by
      rw [List.get?_eq_getElem?]
      exact List.getElem?_eq_getElem hlen
    subst hid
    exact ⟨_, DecodeCAN_abs data _ s h6⟩
  · exact ⟨s, DecodeCAN_other id data s hid⟩

/-- A call that does not fault has a result. -/
theorem call_isSome (MOD_RUN : Int) (c : Call) (s : JLR_L322) (h : c.faults = false) :
    ∃ s1 : JLR_L322, call MOD_RUN c s = some s1 := by
  cases c with
  | task10Ms p => exact ⟨_, rfl⟩
  | task100Ms t => exact ⟨_, rfl⟩
  | setRevCounter v => exact ⟨_, rfl⟩
  | decodeCAN id data =>
    apply DecodeCAN_isSome
    simp only [Call.faults, Bool.and_eq_false_iff, decide_eq_false_iff_not] at h
    rcases h with h | h
    · exact Or.inl h
    · exact Or.inr (by omega)

/-- A call other than a coarse tick keeps `SendCAN`. -/
theorem call_SendCAN (MOD_RUN : Int) (c : Call) (s s1 : JLR_L322)
    (hc : c.isTask100Ms = false) (h : call MOD_RUN c s = some s1) :
    s1.SendCAN = s.SendCAN := by
  cases c with
  | task10Ms p =>
    simp only [call, Option.some.injEq] at h
    subst h
    exact (Task10Ms_fields MOD_RUN p s).2.2.2
  | task100Ms t => simp [Call.isTask100Ms] at hc
  | setRevCounter v =>
    simp only [call, Option.some.injEq] at h
    subst h
    rfl
  | decodeCAN id data => exact (DecodeCAN_fields id data s s1 h).1

/-- A call other than a delivery on the monitored identifier has a result and
keeps `BrakeOn`. -/
theorem call_BrakeOn (MOD_RUN : Int) (c : Call) (s : JLR_L322)
    (hc : c.isAbsFrame = false) :
    ∃ s1 : JLR_L322, call MOD_RUN c s = some s1 ∧ s1.BrakeOn = s.BrakeOn := by
  cases c with
  | task10Ms p => exact ⟨_, rfl, (Task10Ms_fields MOD_RUN p s).2.1⟩
  | task100Ms t => exact ⟨_, rfl, by rw [Task100Ms_eq]⟩
  | setRevCounter v => exact ⟨_, rfl, rfl⟩
  | decodeCAN id data =>
    have hid : id ≠ 0x0BD5FDF0 := by simpa [Call.isAbsFrame] using hc
    exact ⟨s, DecodeCAN_other id data s hid, rfl⟩

/-- A sequence of calls without a coarse tick and without a faulting delivery
has a result, with `SendCAN` as before. -/
theorem run_SendCAN (MOD_RUN : Int) (cs : List Call) (s : JLR_L322)
    (h1 : ∀ c ∈ cs, c.isTask100Ms = false) (h2 : ∀ c ∈ cs, c.faults = false) :
    ∃ s1 : JLR_L322, run MOD_RUN cs s = some s1 ∧ s1.SendCAN = s.SendCAN := by
  induction cs generalizing s with
  | nil => exact ⟨s, rfl, rfl⟩
  | cons c rest ih =>
    obtain ⟨s1, hs1⟩ := call_isSome MOD_RUN c s (h2 c (List.mem_cons_self c rest))
    have e1 := call_SendCAN MOD_RUN c s s1 (h1 c (List.mem_cons_self c rest)) hs1
    obtain ⟨s2, hs2, e2⟩ := ih s1 (fun d hd => h1 d (List.mem_cons_of_mem c hd))
      (fun d hd => h2 d (List.mem_cons_of_mem c hd))
    refine ⟨s2, ?_, by rw [e2, e1]⟩
    simp only [run, hs1]
    exact hs2

/-- A sequence of calls without a delivery on the monitored identifier has a
result, with `BrakeOn` as before. -/
theorem run_BrakeOn (MOD_RUN : Int) (cs : List Call) (s : JLR_L322)
    (h : ∀ c ∈ cs, c.isAbsFrame = false) :
    ∃ s1 : JLR_L322, run MOD_RUN cs s = some s1 ∧ s1.BrakeOn = s.BrakeOn := by
  induction cs generalizing s with
  | nil => exact ⟨s, rfl, rfl⟩
  | cons c rest ih =>
    obtain ⟨s1, hs1, e1⟩ := call_BrakeOn MOD_RUN c s (h c (List.mem_cons_self c rest))
    obtain ⟨s2, hs2, e2⟩ := ih s1 (fun d hd => h d (List.mem_cons_of_mem c hd))
    refine ⟨s2, ?_, by rw [e2, e1]⟩
    simp only [run, hs1]
    exact hs2

/-- The store into a `uint16_t` yields a value below `2^16`. -/
theorem toUInt16_lt (x : Int) : toUInt16 x < 65536 := by
  unfold toUInt16
  omega

/-- The store into a `uint16_t` sees its argument modulo `2^16` only. -/
theorem toUInt16_mod (x : Int) : toUInt16 (x % 65536) = toUInt16 x := by
  unfold toUInt16
  rw [Int.emod_emod_of_dvd x (dvd_refl 65536)]

/-- Narrowing to `int8_t` sees its argument modulo `2^8` only. -/
theorem toInt8_congr (d e : Int) (h : d % 256 = e % 256) : toInt8 d = toInt8 e := by
  unfold toInt8
  omega

/-- With the transmit-enable flag set, the last frame of a fine tick is the
gear frame for the narrowed direction. -/
theorem Task10Ms_last (MOD_RUN : Int) (p : Param) (s : JLR_L322) (h : s.SendCAN = true) :
    (Task10Ms MOD_RUN p s).can.getLast? =
      some ⟨0x0979BAB0, bytes0979BAB0 (toInt8 p.dir) s.BrakeOn⟩ := by
  have hb : (Msg17E80420 (Msg17D80420 MOD_RUN p (Msg17E49220 p
      (Msg17BDFFE0 MOD_RUN p (Msg17C404B0 (Msg17EC0010 s)))))).BrakeOn = s.BrakeOn := by
    simp only [Msg17E80420, Msg17D80420, Msg17E49220, Msg17BDFFE0, Msg17C404B0,
      Msg17EC0010, Send]
    split_ifs <;> rfl
  unfold Task10Ms
  rw [if_pos h]
  simp only [Msg0979BAB0, Send, hb, List.getLast?_append, List.getLast?_singleton,
    take_of_length _ _ (length_bytes0979BAB0 _ _)]
  rfl

/-- The product `speed_input * 480` of a stored speed is between 0 and 2880000. -/
theorem speedProduct_range (speed : Nat) (h : speed < 65536) :
    0 ≤ speedProduct speed ∧ speedProduct speed ≤ 2880000 := by
  unfold speedProduct
  rw [speedClamped_eq speed h]
  generalize hc : max 750 (min 6000 speed) = c
  have r : c ≤ 6000 := by omega
  constructor <;> omega

/-- Bytes 2..3 of a payload `40 00 hi lo 07` built from a value, read high
byte first, give the value back. -/
theorem bigEndian_value (v : Nat) :
    [0x40, 0x00, v / 256, v % 256, 0x07].getD 2 0 * 256 +
      [0x40, 0x00, v / 256, v % 256, 0x07].getD 3 0 = v := by
  simp only [List.getD_cons_succ, List.getD_cons_zero]
  exact Nat.div_add_mod' v 256

/-- The scaled tachometer value of a stored speed is the big-endian value of
bytes 2..3 of the payload. -/
theorem speedScaled_bytes (speed : Nat) (h : speed < 65536) :
    (bytes17BDFFE0 speed).getD 2 0 * 256 + (bytes17BDFFE0 speed).getD 3 0 =
      speedScaled speed := by
  rw [bytes17BDFFE0_eq speed h, speedScaled_eq speed h]
  exact bigEndian_value _

/-- The scaled tachometer value of a stored speed lies in 8994..14034. -/
theorem speedScaled_range (speed : Nat) (h : speed < 65536) :
    8994 ≤ speedScaled speed ∧ speedScaled speed ≤ 14034 := by
  rw [speedScaled_eq speed h]
  generalize hc : max 750 (min 6000 speed) = c
  have r : 750 ≤ c ∧ c ≤ 6000 := by omega
  refine ⟨by omega, by omega⟩

/-- The scaled tachometer value is monotone in the stored speed. -/
theorem speedScaled_mono (s1 s2 : Nat) (h12 : s1 ≤ s2) (h2 : s2 < 65536) :
    speedScaled s1 ≤ speedScaled s2 := by
  rw [speedScaled_eq s1 (by omega), speedScaled_eq s2 h2]
  have r12 : max 750 (min 6000 s1) ≤ max 750 (min 6000 s2) := by omega
  exact Nat.add_le_add_right (Nat.div_le_div_right (Nat.mul_le_mul_right 480 r12)) 8274

/-! ## Claims -/

/-- C1: with the transmit-enable flag set, one fine tick hands the transport
the frames 0x17EC0010 (3 bytes), 0x17C404B0 (7), 0x17BDFFE0 (5, only in mode
MOD_RUN), 0x17E49220 (8), 0x17D80420 (6), 0x17E80420 (6) and 0x0979BAB0 (8),
in this order and no other: seven frames when running, six otherwise. In the
scenario speed 3000, running, 12.0 V, Drive, brake off, the seven frames carry
the tachometer bytes 2B 92 and the gear payload 89 80 00 C7 1F 77 FF 0C. -/
theorem C1_Task10Ms_frames (MOD_RUN : Int) (p : Param) (s : JLR_L322)
    (h : s.SendCAN = true) :
    (∃ sent : List CanFrame,
      (Task10Ms MOD_RUN p s).can = s.can ++ sent ∧
      sent.map (fun f => (f.canId, f.bytes.length)) =
        (if p.opmode = MOD_RUN then
          [(0x17EC0010, 3), (0x17C404B0, 7), (0x17BDFFE0, 5), (0x17E49220, 8),
           (0x17D80420, 6), (0x17E80420, 6), (0x0979BAB0, 8)]
         else
          [(0x17EC0010, 3), (0x17C404B0, 7), (0x17E49220, 8),
           (0x17D80420, 6), (0x17E80420, 6), (0x0979BAB0, 8)]) ∧
      sent.length = (if p.opmode = MOD_RUN then 7 else 6)) ∧
    (∀ (alive : Bool) (start : Bool) (log : List CanFrame),
      (Task10Ms MOD_RUN ⟨MOD_RUN, 1, 0x41400000, start⟩ ⟨3000, false, alive, true, log⟩).can =
        log ++ [⟨0x17EC0010, [0x03, 0xE0, 0x23]⟩,
                ⟨0x17C404B0, [0x10, 0x32, 0x00, 0x0B, 0xFF, 0xC0, 0x00]⟩,
                ⟨0x17BDFFE0, [0x40, 0x00, 0x2B, 0x92, 0x07]⟩,
                ⟨0x17E49220, [0x00, 0x00, 0x00, 0x00, 0x19, 0xC8, 0x00, 0x79]⟩,
                ⟨0x17D80420, [0x3C, 0x7D, 0x40, 0xFB, 0xFF, 0x80]⟩,
                ⟨0x17E80420, [0x3F, 0x00, 0x00, 0x28, 0x00, 0x00]⟩,
                ⟨0x0979BAB0, [0x89, 0x80, 0x00, 0xC7, 0x1F, 0x77, 0xFF, 0x0C]⟩]) := by
  refine ⟨?_, ?_⟩
  · by_cases hm : p.opmode = MOD_RUN
    · refine ⟨[⟨0x17EC0010, [0x03, 0xE0, 0x23]⟩,
                ⟨0x17C404B0, [0x10, 0x32, 0x00, 0x0B, 0xFF, 0xC0, 0x00]⟩,
                ⟨0x17BDFFE0, bytes17BDFFE0 s.speed⟩,
                ⟨0x17E49220, [0x00, 0x00,
                  if FpVal.lt (decodeF32 p.uaux) (decodeF64 lit_11_6) then 0x80 else 0x00,
                  0x00, 0x19, 0xC8, 0x00, 0x79]⟩,
                ⟨0x17D80420, [0x3C, 0x7D, 0x40, 0xFB, 0xFF, 0x80]⟩,
                ⟨0x17E80420, [0x3F, 0x00, 0x00, 0x28, 0x00, 0x00]⟩,
                ⟨0x0979BAB0, bytes0979BAB0 (toInt8 p.dir) s.BrakeOn⟩], ?_, ?_, ?_⟩
      · simp [Task10Ms, h, Msg17EC0010, Msg17C404B0, Msg17BDFFE0, Msg17E49220, Msg17D80420,
          Msg17E80420, Msg0979BAB0, Send, hm, take_of_length _ _ (length_bytes0979BAB0 _ _),
          take_of_length _ _ (length_bytes17BDFFE0 _)]
      · simp [hm, length_bytes0979BAB0, length_bytes17BDFFE0]
      · simp [hm]
    · refine ⟨[⟨0x17EC0010, [0x03, 0xE0, 0x23]⟩,
                ⟨0x17C404B0, [0x10, 0x32, 0x00, 0x0B, 0xFF, 0xC0, 0x00]⟩,
                ⟨0x17E49220, [0x00, 0x00,
                  if FpVal.lt (decodeF32 p.uaux) (decodeF64 lit_11_6) then 0x80 else 0x00,
                  0x00, 0x19, 0xC8, 0x00, 0x79]⟩,
                ⟨0x17D80420, [0x3C, 0x7D, 0x40, 0xFB, 0xFF, 0xA0]⟩,
                ⟨0x17E80420, [0x3F, 0x00, 0x00, 0x28, 0x00, 0x00]⟩,
                ⟨0x0979BAB0, bytes0979BAB0 (toInt8 p.dir) s.BrakeOn⟩], ?_, ?_, ?_⟩
      · simp [Task10Ms, h, Msg17EC0010, Msg17C404B0, Msg17BDFFE0, Msg17E49220, Msg17D80420,
          Msg17E80420, Msg0979BAB0, Send, hm, take_of_length _ _ (length_bytes0979BAB0 _ _)]
      · simp [hm, length_bytes0979BAB0]
      · simp [hm]
  · intro alive start log
    have e1 : bytes17BDFFE0 3000 = [0x40, 0x00, 0x2B, 0x92, 0x07] := by decide
    have e3 : bytes0979BAB0 (toInt8 1) false = [0x89, 0x80, 0x00, 0xC7, 0x1F, 0x77, 0xFF, 0x0C] := by
      decide
    simp [Task10Ms, Msg17EC0010, Msg17C404B0, Msg17BDFFE0, Msg17E49220, Msg17D80420,
      Msg17E80420, Msg0979BAB0, Send, e1, battV_12_0, e3]

/-- C1 at the scenario speed 3000, running, 12.0 V, Drive, brake off. -/
theorem C1_Task10Ms_frames_witness :
    (Task10Ms 1 ⟨1, 1, 0x41400000, false⟩ ⟨3000, false, false, true, []⟩).can =
      [⟨0x17EC0010, [0x03, 0xE0, 0x23]⟩,
       ⟨0x17C404B0, [0x10, 0x32, 0x00, 0x0B, 0xFF, 0xC0, 0x00]⟩,
       ⟨0x17BDFFE0, [0x40, 0x00, 0x2B, 0x92, 0x07]⟩,
       ⟨0x17E49220, [0x00, 0x00, 0x00, 0x00, 0x19, 0xC8, 0x00, 0x79]⟩,
       ⟨0x17D80420, [0x3C, 0x7D, 0x40, 0xFB, 0xFF, 0x80]⟩,
       ⟨0x17E80420, [0x3F, 0x00, 0x00, 0x28, 0x00, 0x00]⟩,
       ⟨0x0979BAB0, [0x89, 0x80, 0x00, 0xC7, 0x1F, 0x77, 0xFF, 0x0C]⟩] := by
  have h := (C1_Task10Ms_frames 1 ⟨1, 1, 0x41400000, false⟩
    ⟨3000, false, false, true, []⟩ rfl).2 false false []
  simpa using h

/-- C2: for each of the five defined gear values and either brake state the
gear encoder sends on 0x0979BAB0 the 8-byte row of the table: b1 = 0x80,
b2 = 0x00, b4 = 0x1F, b6 = 0xFF; b0 = 0x87/0x80/0x89/0x88/0x89 for
Reverse/Neutral/Drive/Park/Sport; b7 = 0x0C except 0x3C for Sport; (b3, b5) =
(0x87, 0xF7) with the brake on, else (0xC7, 0x77), except (0xB7, 0x77) for
Sport. Nothing else of the adapter changes. -/
theorem C2_Msg0979BAB0_table (gear : Int) (s : JLR_L322)
    (hg : gear = -1 ∨ gear = 0 ∨ gear = 1 ∨ gear = 2 ∨ gear = 3) :
    Msg0979BAB0 gear s =
      { s with can := s.can ++ [⟨0x0979BAB0,
        [ (if gear = -1 then 0x87 else if gear = 0 then 0x80 else if gear = 1 then 0x89
            else if gear = 2 then 0x88 else 0x89),
          0x80,
          0x00,
          (if s.BrakeOn then 0x87 else if gear = 3 then 0xB7 else 0xC7),
          0x1F,
          (if s.BrakeOn then 0xF7 else 0x77),
          0xFF,
          (if gear = 3 then 0x3C else 0x0C) ]⟩] } := by
  rcases hg with h | h | h | h | h <;> subst h <;> cases hb : s.BrakeOn <;>
    simp [Msg0979BAB0, Send, bytes0979BAB0, hb]

/-- C2 at Drive with the brake released. -/
theorem C2_Msg0979BAB0_table_witness :
    Msg0979BAB0 1 ⟨3000, false, false, true, []⟩ =
      ⟨3000, false, false, true,
        [⟨0x0979BAB0, [0x89, 0x80, 0x00, 0xC7, 0x1F, 0x77, 0xFF, 0x0C]⟩]⟩ := by
  have h := C2_Msg0979BAB0_table 1 ⟨3000, false, false, true, []⟩ (by decide)
  simpa using h

/-- C3: in mode MOD_RUN, for every stored 16-bit speed, the tachometer
encoder sends on 0x17BDFFE0 the 5 bytes 40 00 hi lo 07, where hi and lo are
bytes with hi*256 + lo = floor(clamp(speed, 750, 6000) * 480 / 500) + 8274
(truncating division, high byte first, no wrap-around in the 16-bit store);
the payload is a function of the speed alone, and nothing else of the adapter
changes. -/
theorem C3_Msg17BDFFE0_payload (MOD_RUN : Int) (p : Param) (s : JLR_L322)
    (hs : s.speed < 65536) (hrun : p.opmode = MOD_RUN) :
    let v := max 750 (min 6000 s.speed) * 480 / 500 + 8274
    Msg17BDFFE0 MOD_RUN p s =
        { s with can := s.can ++ [⟨0x17BDFFE0, [0x40, 0x00, v / 256, v % 256, 0x07]⟩] } ∧
      v / 256 < 256 ∧ v % 256 < 256 ∧ (v / 256) * 256 + v % 256 = v ∧
      speedScaled s.speed = v ∧ v < 65536 := by
  intro v
  have hv : v < 65536 := by
    show max 750 (min 6000 s.speed) * 480 / 500 + 8274 < 65536
    omega
  refine ⟨?_, by omega, by omega, by omega, speedScaled_eq s.speed hs, hv⟩
  simp [Msg17BDFFE0, hrun, Send, bytes17BDFFE0_eq s.speed hs, v]

/-- C3 at speed 3000 in running mode: tachometer value 11154 = 0x2B92. -/
theorem C3_Msg17BDFFE0_payload_witness :
    Msg17BDFFE0 1 ⟨1, 1, 0x41400000, false⟩ ⟨3000, false, false, true, []⟩ =
      ⟨3000, false, false, true, [⟨0x17BDFFE0, [0x40, 0x00, 0x2B, 0x92, 0x07]⟩]⟩ := by
  have h := (C3_Msg17BDFFE0_payload 1 ⟨1, 1, 0x41400000, false⟩
    ⟨3000, false, false, true, []⟩ (by decide) rfl).1
  simpa using h

/-- C4: for every stored speed below 750 the tachometer frame is the frame for
speed 750, with scaled value 8994; for every stored speed above 6000 it is the
frame for speed 6000, with scaled value 14034. -/
theorem C4_Msg17BDFFE0_clamp (MOD_RUN : Int) (p : Param) (s : JLR_L322)
    (hs : s.speed < 65536) :
    (s.speed < 750 →
      (Msg17BDFFE0 MOD_RUN p s).can = (Msg17BDFFE0 MOD_RUN p { s with speed := 750 }).can ∧
      bytes17BDFFE0 s.speed = bytes17BDFFE0 750 ∧
      speedScaled s.speed = 8994) ∧
    (6000 < s.speed →
      (Msg17BDFFE0 MOD_RUN p s).can = (Msg17BDFFE0 MOD_RUN p { s with speed := 6000 }).can ∧
      bytes17BDFFE0 s.speed = bytes17BDFFE0 6000 ∧
      speedScaled s.speed = 14034) ∧
    speedScaled 750 = 8994 ∧ speedScaled 6000 = 14034 ∧
    bytes17BDFFE0 750 = [0x40, 0x00, 0x23, 0x22, 0x07] ∧
    bytes17BDFFE0 6000 = [0x40, 0x00, 0x36, 0xD2, 0x07] := by
  have b1 : bytes17BDFFE0 750 = [0x40, 0x00, 0x23, 0x22, 0x07] := by decide
  have b2 : bytes17BDFFE0 6000 = [0x40, 0x00, 0x36, 0xD2, 0x07] := by decide
  refine ⟨?_, ?_, by decide, by decide, b1, b2⟩
  · intro hlt
    have e : max 750 (min 6000 s.speed) = 750 := by omega
    have hb : bytes17BDFFE0 s.speed = bytes17BDFFE0 750 := by
      rw [b1, bytes17BDFFE0_eq s.speed hs, e]
    refine ⟨?_, hb, ?_⟩
    · simp [Msg17BDFFE0, Send, hb]
      split_ifs <;> rfl
    · rw [speedScaled_eq s.speed hs, e]
  · intro hgt
    have e : max 750 (min 6000 s.speed) = 6000 := by omega
    have hb : bytes17BDFFE0 s.speed = bytes17BDFFE0 6000 := by
      rw [b2, bytes17BDFFE0_eq s.speed hs, e]
    refine ⟨?_, hb, ?_⟩
    · simp [Msg17BDFFE0, Send, hb]
      split_ifs <;> rfl
    · rw [speedScaled_eq s.speed hs, e]

/-- C4 at the stored speeds 0 and 65535 in running mode. -/
theorem C4_Msg17BDFFE0_clamp_witness :
    (Msg17BDFFE0 1 ⟨1, 1, 0x41400000, false⟩ ⟨0, false, false, true, []⟩).can =
        [⟨0x17BDFFE0, [0x40, 0x00, 0x23, 0x22, 0x07]⟩] ∧
      (Msg17BDFFE0 1 ⟨1, 1, 0x41400000, false⟩ ⟨65535, false, false, true, []⟩).can =
        [⟨0x17BDFFE0, [0x40, 0x00, 0x36, 0xD2, 0x07]⟩] := by
  have h0 := (C4_Msg17BDFFE0_clamp 1 ⟨1, 1, 0x41400000, false⟩
    ⟨0, false, false, true, []⟩ (by decide)).1 (by decide)
  have h1 := (C4_Msg17BDFFE0_clamp 1 ⟨1, 1, 0x41400000, false⟩
    ⟨65535, false, false, true, []⟩ (by decide)).2.1 (by decide)
  have b1 : bytes17BDFFE0 750 = [0x40, 0x00, 0x23, 0x22, 0x07] := by decide
  have b2 : bytes17BDFFE0 6000 = [0x40, 0x00, 0x36, 0xD2, 0x07] := by decide
  refine ⟨?_, ?_⟩
  · rw [h0.1]
    simp [Msg17BDFFE0, Send, b1]
  · rw [h1.1]
    simp [Msg17BDFFE0, Send, b2]

/-- C5: in every operating mode other than MOD_RUN the tachometer encoder
sends no frame at all, for every speed: the adapter and the list of frames
handed to the transport are unchanged (no zero-filled frame is appended); in
mode MOD_RUN it sends exactly one frame. -/
theorem C5_Msg17BDFFE0_gate (MOD_RUN : Int) (p : Param) (s : JLR_L322) :
    (p.opmode ≠ MOD_RUN → Msg17BDFFE0 MOD_RUN p s = s) ∧
    (p.opmode = MOD_RUN →
      ∃ f : CanFrame, (Msg17BDFFE0 MOD_RUN p s).can = s.can ++ [f] ∧
        f.canId = 0x17BDFFE0 ∧
        (Msg17BDFFE0 MOD_RUN p s).can.length = s.can.length + 1) := by
  refine ⟨?_, ?_⟩
  · intro h
    simp [Msg17BDFFE0, h]
  · intro h
    refine ⟨⟨0x17BDFFE0, bytes17BDFFE0 s.speed⟩, ?_, rfl, ?_⟩
    · simp [Msg17BDFFE0, h, Send, take_of_length _ _ (length_bytes17BDFFE0 _)]
    · simp [Msg17BDFFE0, h, Send]

/-- C5 at mode 0 (not running) and mode 1 (running), speed 3000. -/
theorem C5_Msg17BDFFE0_gate_witness :
    Msg17BDFFE0 1 ⟨0, 1, 0x41400000, false⟩ ⟨3000, false, false, true, []⟩ =
        ⟨3000, false, false, true, []⟩ ∧
      (Msg17BDFFE0 1 ⟨1, 1, 0x41400000, false⟩ ⟨3000, false, false, true, []⟩).can.length = 1 := by
  refine ⟨(C5_Msg17BDFFE0_gate 1 ⟨0, 1, 0x41400000, false⟩
      ⟨3000, false, false, true, []⟩).1 (by decide), ?_⟩
  obtain ⟨f, -, -, h⟩ := (C5_Msg17BDFFE0_gate 1 ⟨1, 1, 0x41400000, false⟩
      ⟨3000, false, false, true, []⟩).2 rfl
  simpa using h

/-- C6: the coarse tick leaves SendCAN equal to (AbsCANalive before the call
OR ignition input) and AbsCANalive equal to false and changes nothing else
(speed, BrakeOn and the frames handed to the transport are unchanged); in
particular SendCAN is true after every coarse tick with the ignition input
active, whatever AbsCANalive was. -/
theorem C6_Task100Ms_gate (t15_digi : Bool) (s : JLR_L322) :
    Task100Ms t15_digi s =
        { s with SendCAN := (s.AbsCANalive || t15_digi), AbsCANalive := false } ∧
      (Task100Ms true s).SendCAN = true := by
  refine ⟨Task100Ms_eq t15_digi s, ?_⟩
  rw [Task100Ms_eq]
  simp

/-- C7: on identifier 0x0BD5FDF0 with an 8-byte payload the decoder sets
BrakeOn to (bit 0 of payload byte 6 is set) and AbsCANalive to true, leaving
SendCAN, speed and the transport untouched; on every other identifier, with
any payload, it changes nothing and sends nothing. -/
theorem C7_DecodeCAN (id : Int) (data : List Nat) (s : JLR_L322) :
    (data.length = 8 →
      DecodeCAN 0x0BD5FDF0 data s =
        some { s with BrakeOn := (data.getD 6 0).testBit 0, AbsCANalive := true }) ∧
    (id ≠ 0x0BD5FDF0 → DecodeCAN id data s = some s) := by
  refine ⟨?_, ?_⟩
  · intro hlen
    have h6 : data.get? 6 = some (data.getD 6 0) := by
      rw [List.getD_eq_getElem?_getD, List.get?_eq_getElem?]
      have : 6 < data.length := by omega
      simp [List.getElem?_eq_getElem this]
    exact DecodeCAN_abs data _ s h6
  · intro hid
    simp [DecodeCAN, hid]

/-- C7 at the payloads with byte 6 = 0xEF (pedal pressed) and 0xEE
(released), and at the foreign identifier 0x153. -/
theorem C7_DecodeCAN_witness :
    DecodeCAN 0x0BD5FDF0 [0, 0, 0, 0, 0, 0, 0xEF, 0] ⟨3000, false, false, false, []⟩ =
        some ⟨3000, true, true, false, []⟩ ∧
      DecodeCAN 0x0BD5FDF0 [0, 0, 0, 0, 0, 0, 0xEE, 0] ⟨3000, true, false, false, []⟩ =
        some ⟨3000, false, true, false, []⟩ ∧
      DecodeCAN 0x153 [0, 0, 0, 0, 0, 0, 0xEF, 0] ⟨3000, false, false, false, []⟩ =
        some ⟨3000, false, false, false, []⟩ := by
  have h1 := (C7_DecodeCAN 0 [0, 0, 0, 0, 0, 0, 0xEF, 0] ⟨3000, false, false, false, []⟩).1 rfl
  have h2 := (C7_DecodeCAN 0 [0, 0, 0, 0, 0, 0, 0xEE, 0] ⟨3000, true, false, false, []⟩).1 rfl
  have h3 := (C7_DecodeCAN 0x153 [0, 0, 0, 0, 0, 0, 0xEF, 0]
    ⟨3000, false, false, false, []⟩).2 (by decide)
  refine ⟨?_, ?_, h3⟩
  · rw [h1]; decide
  · rw [h2]; decide

/-- C8: while the transmit-enable flag is false a fine tick hands no frame to
the transport, whatever the vehicle state: the adapter and the list of frames
sent are unchanged. -/
theorem C8_Task10Ms_suppressed (MOD_RUN : Int) (p : Param) (s : JLR_L322)
    (h : s.SendCAN = false) :
    Task10Ms MOD_RUN p s = s ∧ (Task10Ms MOD_RUN p s).can = s.can := by
  have e : Task10Ms MOD_RUN p s = s := by simp [Task10Ms, h]
  exact ⟨e, by rw [e]⟩

/-- C8 at speed 3000, running, 12.0 V, Drive, with SendCAN false. -/
theorem C8_Task10Ms_suppressed_witness :
    (Task10Ms 1 ⟨1, 1, 0x41400000, false⟩ ⟨3000, false, true, false, []⟩).can = [] :=
  (C8_Task10Ms_suppressed 1 ⟨1, 1, 0x41400000, false⟩ ⟨3000, false, true, false, []⟩ rfl).2

/-- C9: from any adapter state, one decoder call on 0x0BD5FDF0 whose payload
byte 6 has bit 0 set leaves AbsCANalive and BrakeOn true; the first coarse
tick after it sets SendCAN true whatever the ignition input; a following
coarse tick with the ignition input false and no decoder call in between sets
SendCAN false, and BrakeOn is still true. Fine ticks in between change none of
this. -/
theorem C9_liveness_delay (data : List Nat) (b6 : Nat) (s : JLR_L322) (t15_digi : Bool)
    (MOD_RUN : Int) (p q : Param)
    (h6 : data.get? 6 = some b6) (hbit : b6.testBit 0 = true) :
    ∃ s1 : JLR_L322, DecodeCAN 0x0BD5FDF0 data s = some s1 ∧
      s1.AbsCANalive = true ∧ s1.BrakeOn = true ∧
      (Task100Ms t15_digi s1).SendCAN = true ∧
      (Task100Ms false (Task100Ms t15_digi s1)).SendCAN = false ∧
      (Task100Ms false (Task100Ms t15_digi s1)).BrakeOn = true ∧
      (Task100Ms t15_digi (Task10Ms MOD_RUN p s1)).SendCAN = true ∧
      (Task100Ms false (Task10Ms MOD_RUN q
        (Task100Ms t15_digi (Task10Ms MOD_RUN p s1)))).SendCAN = false ∧
      (Task100Ms false (Task10Ms MOD_RUN q
        (Task100Ms t15_digi (Task10Ms MOD_RUN p s1)))).BrakeOn = true := by
  have g := Task10Ms_fields MOD_RUN p { s with BrakeOn := true, AbsCANalive := true }
  have f := Task10Ms_fields MOD_RUN q
    (Task100Ms t15_digi (Task10Ms MOD_RUN p { s with BrakeOn := true, AbsCANalive := true }))
  refine ⟨{ s with BrakeOn := true, AbsCANalive := true }, ?_, rfl, rfl, ?_, ?_, ?_, ?_, ?_, ?_⟩
  · rw [DecodeCAN_abs data b6 s h6, hbit]
  · simp [Task100Ms_eq]
  · simp [Task100Ms_eq]
  · simp [Task100Ms_eq]
  · rw [Task100Ms_eq, g.2.2.1]
    simp
  · rw [Task100Ms_eq, f.2.2.1]
    simp [Task100Ms_eq]
  · rw [Task100Ms_eq]
    show (Task10Ms MOD_RUN q _).BrakeOn = true
    rw [f.2.1, Task100Ms_eq]
    exact g.2.1

/-- C9 from the all-clear state, payload byte 6 = 0xEF, ignition off, with a
fine tick in running mode before each coarse tick. -/
theorem C9_liveness_delay_witness :
    ∃ s1 : JLR_L322,
      DecodeCAN 0x0BD5FDF0 [0, 0, 0, 0, 0, 0, 0xEF, 0] ⟨0, false, false, false, []⟩ = some s1 ∧
      s1.AbsCANalive = true ∧ s1.BrakeOn = true ∧
      (Task100Ms false s1).SendCAN = true ∧
      (Task100Ms false (Task100Ms false s1)).SendCAN = false ∧
      (Task100Ms false (Task100Ms false s1)).BrakeOn = true ∧
      (Task100Ms false (Task10Ms 1 ⟨1, 1, 0x41400000, false⟩ s1)).SendCAN = true ∧
      (Task100Ms false (Task10Ms 1 ⟨1, 1, 0x41400000, false⟩
        (Task100Ms false (Task10Ms 1 ⟨1, 1, 0x41400000, false⟩ s1)))).SendCAN = false ∧
      (Task100Ms false (Task10Ms 1 ⟨1, 1, 0x41400000, false⟩
        (Task100Ms false (Task10Ms 1 ⟨1, 1, 0x41400000, false⟩ s1)))).BrakeOn = true :=
  C9_liveness_delay [0, 0, 0, 0, 0, 0, 0xEF, 0] 0xEF ⟨0, false, false, false, []⟩ false 1
    ⟨1, 1, 0x41400000, false⟩ ⟨1, 1, 0x41400000, false⟩ rfl (by decide)

/-- C10: for every battery voltage the battery-fault encoder sends on
0x17E49220 the 8 bytes 00 00 b2 00 19 C8 00 79, where b2 is 0x80 if and only
if the voltage is strictly less than 11.6 and 0x00 otherwise, whatever the
rest of the state; the float nearest 11.6 yields 0x00 and the float just below
it 0x80. -/
theorem C10_Msg17E49220_battery (p : Param) (s : JLR_L322) :
    ∃ b2 : Nat,
      Msg17E49220 p s =
        { s with can := s.can ++
          [⟨0x17E49220, [0x00, 0x00, b2, 0x00, 0x19, 0xC8, 0x00, 0x79]⟩] } ∧
      (b2 = 0x80 ↔ FpVal.belowRat (decodeF32 p.uaux) (58 / 5)) ∧
      (b2 = 0x00 ↔ ¬ FpVal.belowRat (decodeF32 p.uaux) (58 / 5)) ∧
      (Msg17E49220 { p with uaux := 0x4139999A } s).can = s.can ++
          [⟨0x17E49220, [0x00, 0x00, 0x00, 0x00, 0x19, 0xC8, 0x00, 0x79]⟩] ∧
      (Msg17E49220 { p with uaux := 0x41399999 } s).can = s.can ++
          [⟨0x17E49220, [0x00, 0x00, 0x80, 0x00, 0x19, 0xC8, 0x00, 0x79]⟩] := by
  refine ⟨if FpVal.lt (decodeF32 p.uaux) (decodeF64 lit_11_6) then 0x80 else 0x00,
    ?_, ?_, ?_, ?_, ?_⟩
  · simp [Msg17E49220, Send]
  · rw [← battV_lt_iff]
    cases FpVal.lt (decodeF32 p.uaux) (decodeF64 lit_11_6) <;> simp
  · rw [← battV_lt_iff]
    cases FpVal.lt (decodeF32 p.uaux) (decodeF64 lit_11_6) <;> simp
  · simp [Msg17E49220, Send, battV_nearest_11_6]
  · simp [Msg17E49220, Send, battV_pred_11_6]

/-- C11: for every operating mode the engine fault-lamp encoder sends on
0x17D80420 the six bytes 3C 7D 40 FB FF b5, where b5 is 0x80 if and only if
the mode is MOD_RUN and 0xA0 otherwise; the same frame is sent from every
other adapter state and parameter set with that operating mode, whatever
speed, voltage, gear, BrakeOn, AbsCANalive and SendCAN are. -/
theorem C11_Msg17D80420_lamp (MOD_RUN : Int) (p : Param) (s : JLR_L322) :
    ∃ b5 : Nat,
      Msg17D80420 MOD_RUN p s =
        { s with can := s.can ++ [⟨0x17D80420, [0x3C, 0x7D, 0x40, 0xFB, 0xFF, b5]⟩] } ∧
      (b5 = 0x80 ↔ p.opmode = MOD_RUN) ∧
      (b5 = 0xA0 ↔ p.opmode ≠ MOD_RUN) ∧
      (∀ (q : Param) (t : JLR_L322),
        Msg17D80420 MOD_RUN { q with opmode := p.opmode } t =
          { t with can := t.can ++ [⟨0x17D80420, [0x3C, 0x7D, 0x40, 0xFB, 0xFF, b5]⟩] }) := by
  refine ⟨if p.opmode = MOD_RUN then 0x80 else 0xA0, ?_, ?_, ?_, ?_⟩
  · simp [Msg17D80420, Send]
  · by_cases h : p.opmode = MOD_RUN <;> simp [h]
  · by_cases h : p.opmode = MOD_RUN <;> simp [h]
  · intro q t
    simp [Msg17D80420, Send]

/-- C11 in mode 1 (running) and in mode 0, MOD_RUN being 1. -/
theorem C11_Msg17D80420_lamp_witness :
    (Msg17D80420 1 ⟨1, 1, 0x41400000, false⟩ ⟨3000, false, false, true, []⟩).can =
        [⟨0x17D80420, [0x3C, 0x7D, 0x40, 0xFB, 0xFF, 0x80]⟩] ∧
      (Msg17D80420 1 ⟨0, 1, 0x41400000, false⟩ ⟨3000, false, false, true, []⟩).can =
        [⟨0x17D80420, [0x3C, 0x7D, 0x40, 0xFB, 0xFF, 0xA0]⟩] := by
  obtain ⟨b, hb, h80, -, -⟩ :=
    C11_Msg17D80420_lamp 1 ⟨1, 1, 0x41400000, false⟩ ⟨3000, false, false, true, []⟩
  obtain ⟨c, hc, -, hA0, -⟩ :=
    C11_Msg17D80420_lamp 1 ⟨0, 1, 0x41400000, false⟩ ⟨3000, false, false, true, []⟩
  have eb : b = 0x80 := h80.2 rfl
  have ec : c = 0xA0 := hA0.2 (by decide)
  subst eb
  subst ec
  exact ⟨by rw [hb]; rfl, by rw [hc]; rfl⟩

/-- C12: for every gear value outside -1, 0, 1, 2, 3 and either brake state
the gear encoder sends on 0x0979BAB0 eight 0x00 bytes, and changes nothing
else. -/
theorem C12_Msg0979BAB0_undefined (gear : Int) (s : JLR_L322)
    (hg : gear ≠ -1 ∧ gear ≠ 0 ∧ gear ≠ 1 ∧ gear ≠ 2 ∧ gear ≠ 3) :
    Msg0979BAB0 gear s =
      { s with can := s.can ++
        [⟨0x0979BAB0, [0x00, 0x00, 0x00, 0x00, 0x00, 0x00, 0x00, 0x00]⟩] } := by
  obtain ⟨h1, h2, h3, h4, h5⟩ := hg
  simp [Msg0979BAB0, Send, bytes0979BAB0, h1, h2, h3, h4, h5]

/-- C12 at gear 4 with the brake pressed and gear -2 with the brake released. -/
theorem C12_Msg0979BAB0_undefined_witness :
    Msg0979BAB0 4 ⟨3000, true, false, true, []⟩ =
        ⟨3000, true, false, true, [⟨0x0979BAB0, [0, 0, 0, 0, 0, 0, 0, 0]⟩]⟩ ∧
      Msg0979BAB0 (-2) ⟨3000, false, false, true, []⟩ =
        ⟨3000, false, false, true, [⟨0x0979BAB0, [0, 0, 0, 0, 0, 0, 0, 0]⟩]⟩ :=
  ⟨C12_Msg0979BAB0_undefined 4 ⟨3000, true, false, true, []⟩ (by decide),
   C12_Msg0979BAB0_undefined (-2) ⟨3000, false, false, true, []⟩ (by decide)⟩

/-- C13: the two transmission-keepalive frames and the glow-plug frame are
constants: Msg17EC0010 always sends 03 E0 23 on 0x17EC0010, Msg17C404B0 always
sends 10 32 00 0B FF C0 00 on 0x17C404B0, and Msg17E80420 always sends
3F 00 00 28 00 00 on 0x17E80420, from every adapter state; they read no
parameter and change no field. -/
theorem C13_constant_frames (s : JLR_L322) :
    Msg17EC0010 s = { s with can := s.can ++ [⟨0x17EC0010, [0x03, 0xE0, 0x23]⟩] } ∧
    Msg17C404B0 s =
      { s with can := s.can ++ [⟨0x17C404B0, [0x10, 0x32, 0x00, 0x0B, 0xFF, 0xC0, 0x00]⟩] } ∧
    Msg17E80420 s =
      { s with can := s.can ++ [⟨0x17E80420, [0x3F, 0x00, 0x00, 0x28, 0x00, 0x00]⟩] } := by
  refine ⟨?_, ?_, ?_⟩
  · simp [Msg17EC0010, Send]
  · simp [Msg17C404B0, Send]
  · simp [Msg17E80420, Send]

/-- C14: SendCAN is written only by the coarse tick. A fine tick, the speed
setter and the decoder (any identifier, any payload for which it returns, and
it returns whenever the identifier is not the monitored one or byte 6 can be
read) leave SendCAN unchanged; hence every sequence of such calls between two
coarse ticks has a result in which SendCAN is what it was. -/
theorem C14_SendCAN_frame (MOD_RUN : Int) (p : Param) (v : Int) (id : Int)
    (data : List Nat) (s : JLR_L322) :
    (Task10Ms MOD_RUN p s).SendCAN = s.SendCAN ∧
    (SetRevCounter v s).SendCAN = s.SendCAN ∧
    (∀ s1 : JLR_L322, DecodeCAN id data s = some s1 → s1.SendCAN = s.SendCAN) ∧
    ((id ≠ 0x0BD5FDF0 ∨ 6 < data.length) →
      ∃ s1 : JLR_L322, DecodeCAN id data s = some s1 ∧ s1.SendCAN = s.SendCAN) ∧
    (∀ cs : List Call, (∀ c ∈ cs, c.isTask100Ms = false) → (∀ c ∈ cs, c.faults = false) →
      ∃ s1 : JLR_L322, run MOD_RUN cs s = some s1 ∧ s1.SendCAN = s.SendCAN) := by
  refine ⟨(Task10Ms_fields MOD_RUN p s).2.2.2, rfl, ?_, ?_, ?_⟩
  · intro s1 h
    exact (DecodeCAN_fields id data s s1 h).1
  · intro h
    obtain ⟨s1, hs1⟩ := DecodeCAN_isSome id data s h
    exact ⟨s1, hs1, (DecodeCAN_fields id data s s1 hs1).1⟩
  · intro cs h1 h2
    exact run_SendCAN MOD_RUN cs s h1 h2

/-- C14 on the sequence: inbound brake frame, fine tick, speed 5000, fine
tick, from a state with SendCAN set. -/
theorem C14_SendCAN_frame_witness :
    (∃ s1 : JLR_L322,
      DecodeCAN 0x0BD5FDF0 [0, 0, 0, 0, 0, 0, 0xEF, 0] ⟨0, false, false, true, []⟩ = some s1 ∧
        s1.SendCAN = true) ∧
    (∃ s1 : JLR_L322,
      run 1 [Call.decodeCAN 0x0BD5FDF0 [0, 0, 0, 0, 0, 0, 0xEF, 0],
             Call.task10Ms ⟨1, 1, 0x41400000, false⟩,
             Call.setRevCounter 5000,
             Call.task10Ms ⟨1, 1, 0x41400000, false⟩] ⟨0, false, false, true, []⟩ = some s1 ∧
        s1.SendCAN = true) := by
  have h := C14_SendCAN_frame 1 ⟨1, 1, 0x41400000, false⟩ 5000 0x0BD5FDF0
    [0, 0, 0, 0, 0, 0, 0xEF, 0] ⟨0, false, false, true, []⟩
  exact ⟨h.2.2.2.1 (Or.inr (by decide)), h.2.2.2.2 _ (by decide) (by decide)⟩

/-- C15: BrakeOn is written only by the decoder on 0x0BD5FDF0. The coarse
tick, the fine tick (gear encoder included), the speed setter and the decoder
on any other identifier leave BrakeOn unchanged; hence every sequence of such
calls, of any length, has a result in which BrakeOn is what it was. -/
theorem C15_BrakeOn_frame (MOD_RUN : Int) (p : Param) (t15_digi : Bool) (v : Int)
    (id : Int) (data : List Nat) (gear : Int) (s : JLR_L322) :
    (Task100Ms t15_digi s).BrakeOn = s.BrakeOn ∧
    (Task10Ms MOD_RUN p s).BrakeOn = s.BrakeOn ∧
    (Msg0979BAB0 gear s).BrakeOn = s.BrakeOn ∧
    (SetRevCounter v s).BrakeOn = s.BrakeOn ∧
    (id ≠ 0x0BD5FDF0 → DecodeCAN id data s = some s) ∧
    (∀ cs : List Call, (∀ c ∈ cs, c.isAbsFrame = false) →
      ∃ s1 : JLR_L322, run MOD_RUN cs s = some s1 ∧ s1.BrakeOn = s.BrakeOn) := by
  refine ⟨by rw [Task100Ms_eq], (Task10Ms_fields MOD_RUN p s).2.1, rfl, rfl, ?_, ?_⟩
  · intro hid
    exact DecodeCAN_other id data s hid
  · intro cs h
    exact run_BrakeOn MOD_RUN cs s h

/-- C15 on the sequence: coarse tick, fine tick, frame on identifier 0x153,
speed 5000, coarse tick, fine tick, from a state with the brake pressed. -/
theorem C15_BrakeOn_frame_witness :
    DecodeCAN 0x153 [0, 0, 0, 0, 0, 0, 0, 0] ⟨0, true, true, false, []⟩ =
        some ⟨0, true, true, false, []⟩ ∧
    (∃ s1 : JLR_L322,
      run 1 [Call.task100Ms false,
             Call.task10Ms ⟨1, 1, 0x41400000, false⟩,
             Call.decodeCAN 0x153 [0, 0, 0, 0, 0, 0, 0, 0],
             Call.setRevCounter 5000,
             Call.task100Ms false,
             Call.task10Ms ⟨1, 1, 0x41400000, false⟩] ⟨0, true, true, false, []⟩ = some s1 ∧
        s1.BrakeOn = true) := by
  have h := C15_BrakeOn_frame 1 ⟨1, 1, 0x41400000, false⟩ false 5000 0x153
    [0, 0, 0, 0, 0, 0, 0, 0] 1 ⟨0, true, true, false, []⟩
  exact ⟨h.2.2.2.2.1 (by decide), h.2.2.2.2.2 _ (by decide)⟩

/-- C16, as stated, fails: on the monitored identifier a 7-byte buffer whose
byte 6 has bit 0 set turns BrakeOn and AbsCANalive from false to true, so the
call is not a no-op; and on a 6-byte buffer the call has no result at all,
the read of byte 6 falling outside the buffer. -/
theorem C16_counterexample :
    DecodeCAN 0x0BD5FDF0 [0, 0, 0, 0, 0, 0, 1] ⟨0, false, false, false, []⟩ =
        some ⟨0, true, true, false, []⟩ ∧
      DecodeCAN 0x0BD5FDF0 [0, 0, 0, 0, 0, 0, 1] ⟨0, false, false, false, []⟩ ≠
        some ⟨0, false, false, false, []⟩ ∧
      DecodeCAN 0x0BD5FDF0 [0, 0, 0, 0, 0, 0] ⟨0, false, false, false, []⟩ = none ∧
      ¬ (∀ (data : List Nat) (s : JLR_L322), data.length < 8 →
          DecodeCAN 0x0BD5FDF0 data s = some s) := by
  refine ⟨by decide, by decide, by decide, ?_⟩
  intro h
  have h1 := h [0, 0, 0, 0, 0, 0] ⟨0, false, false, false, []⟩ (by decide)
  exact absurd h1 (by decide)

/-- C16, amended: on the monitored identifier the decoder does not look at the
payload length. With a buffer shorter than 8 bytes, if byte 6 is present (7
bytes) it sets BrakeOn to bit 0 of byte 6 and AbsCANalive to true, as for a
full payload; if the buffer has 6 bytes or fewer the read of byte 6 falls
outside it and the call has no result. Whenever it returns, SendCAN, speed
and the transport are unchanged. -/
theorem C16_DecodeCAN_short_amended (data : List Nat) (s : JLR_L322)
    (hlen : data.length < 8) :
    (data.length = 7 →
      DecodeCAN 0x0BD5FDF0 data s =
        some { s with BrakeOn := (data.getD 6 0).testBit 0, AbsCANalive := true }) ∧
    (data.length ≤ 6 → DecodeCAN 0x0BD5FDF0 data s = none) ∧
    (∀ s1 : JLR_L322, DecodeCAN 0x0BD5FDF0 data s = some s1 →
      data.length = 7 ∧ s1.SendCAN = s.SendCAN ∧ s1.speed = s.speed ∧ s1.can = s.can) := by
  refine ⟨?_, ?_, ?_⟩
  · intro h7
    have h6 : data.get? 6 = some (data.getD 6 0) := by
      rw [List.getD_eq_getElem?_getD, List.get?_eq_getElem?]
      have : 6 < data.length := by omega
      simp [List.getElem?_eq_getElem this]
    exact DecodeCAN_abs data _ s h6
  · intro h
    exact DecodeCAN_short data s h
  · intro s1 h
    refine ⟨?_, DecodeCAN_fields _ data s s1 h⟩
    by_contra h7
    have hs : data.length ≤ 6 := by omega
    rw [DecodeCAN_short data s hs] at h
    cases h

/-- C16 amended, at a 7-byte buffer with the pedal bit set and at a 6-byte
buffer. -/
theorem C16_DecodeCAN_short_amended_witness :
    DecodeCAN 0x0BD5FDF0 [0, 0, 0, 0, 0, 0, 1] ⟨0, false, false, false, []⟩ =
        some ⟨0, true, true, false, []⟩ ∧
      DecodeCAN 0x0BD5FDF0 [0, 0, 0, 0, 0, 0] ⟨0, false, false, false, []⟩ = none := by
  have h7 := (C16_DecodeCAN_short_amended [0, 0, 0, 0, 0, 0, 1]
    ⟨0, false, false, false, []⟩ (by decide)).1 rfl
  have h6 := (C16_DecodeCAN_short_amended [0, 0, 0, 0, 0, 0]
    ⟨0, false, false, false, []⟩ (by decide)).2.1 (by decide)
  refine ⟨?_, h6⟩
  rw [h7]
  decide

/-- C17: the speed setter stores its `int` argument reduced modulo 2^16, so
the adapter, and with it the tachometer frame, after SetRevCounter(v) is the
one after SetRevCounter(v mod 65536). A speed above 6000 is therefore not
always treated as 6000 at the setter: SetRevCounter(65536) leads to the
clamp-floor value 8994 and SetRevCounter(-1) to the clamp-ceiling value
14034. -/
theorem C17_SetRevCounter_wraps (MOD_RUN : Int) (p : Param) (v : Int) (s : JLR_L322) :
    (SetRevCounter v s).speed = (v % 65536).toNat ∧
    (SetRevCounter v s).speed < 65536 ∧
    SetRevCounter v s = SetRevCounter (v % 65536) s ∧
    Msg17BDFFE0 MOD_RUN p (SetRevCounter v s) =
      Msg17BDFFE0 MOD_RUN p (SetRevCounter (v % 65536) s) ∧
    speedScaled (SetRevCounter 65536 s).speed = 8994 ∧
    bytes17BDFFE0 (SetRevCounter 65536 s).speed = [0x40, 0x00, 0x23, 0x22, 0x07] ∧
    speedScaled (SetRevCounter (-1) s).speed = 14034 ∧
    bytes17BDFFE0 (SetRevCounter (-1) s).speed = [0x40, 0x00, 0x36, 0xD2, 0x07] := by
  have e : SetRevCounter v s = SetRevCounter (v % 65536) s := by
    simp only [SetRevCounter, toUInt16_mod]
  refine ⟨rfl, toUInt16_lt v, e, by rw [e], ?_, ?_, ?_, ?_⟩ <;>
    simp only [SetRevCounter] <;> decide

/-- C18: the fine tick narrows the direction read from the parameter store to
`int8_t` before the gear lookup, so its gear frame depends on the direction
modulo 256 only, and a direction outside -1, 0, 1, 2, 3 can select a defined
gear: direction 257 sends the Drive row and direction 255 the Reverse row,
not eight zero bytes. -/
theorem C18_Task10Ms_gear_narrowing (MOD_RUN : Int) (p : Param) (s : JLR_L322)
    (h : s.SendCAN = true) :
    (Task10Ms MOD_RUN p s).can.getLast? =
      some ⟨0x0979BAB0, bytes0979BAB0 (toInt8 p.dir) s.BrakeOn⟩ ∧
    (∀ q : Param, q.dir % 256 = p.dir % 256 →
      (Task10Ms MOD_RUN q s).can.getLast? = (Task10Ms MOD_RUN p s).can.getLast?) ∧
    (Task10Ms MOD_RUN { p with dir := 257 } s).can.getLast? =
      some ⟨0x0979BAB0, [0x89, 0x80, 0x00, if s.BrakeOn then 0x87 else 0xC7, 0x1F,
        if s.BrakeOn then 0xF7 else 0x77, 0xFF, 0x0C]⟩ ∧
    (Task10Ms MOD_RUN { p with dir := 255 } s).can.getLast? =
      some ⟨0x0979BAB0, [0x87, 0x80, 0x00, if s.BrakeOn then 0x87 else 0xC7, 0x1F,
        if s.BrakeOn then 0xF7 else 0x77, 0xFF, 0x0C]⟩ := by
  refine ⟨Task10Ms_last MOD_RUN p s h, ?_, ?_, ?_⟩
  · intro q hq
    rw [Task10Ms_last MOD_RUN q s h, Task10Ms_last MOD_RUN p s h, toInt8_congr q.dir p.dir hq]
  · rw [Task10Ms_last MOD_RUN _ s h]
    have e : toInt8 257 = 1 := by decide
    cases hb : s.BrakeOn <;> simp [e, bytes0979BAB0]
  · rw [Task10Ms_last MOD_RUN _ s h]
    have e : toInt8 255 = -1 := by decide
    cases hb : s.BrakeOn <;> simp [e, bytes0979BAB0]

/-- C18 at direction 257, speed 3000, not running, brake released. -/
theorem C18_Task10Ms_gear_narrowing_witness :
    (Task10Ms 1 ⟨0, 257, 0x41400000, false⟩ ⟨3000, false, false, true, []⟩).can.getLast? =
      some ⟨0x0979BAB0, [0x89, 0x80, 0x00, 0xC7, 0x1F, 0x77, 0xFF, 0x0C]⟩ := by
  have h := (C18_Task10Ms_gear_narrowing 1 ⟨0, 257, 0x41400000, false⟩
    ⟨3000, false, false, true, []⟩ rfl).2.2.1
  simpa using h

/-- C19: the 16-bit tachometer value, carried high byte first in bytes 2..3
of the 0x17BDFFE0 frame, is monotone non-decreasing in the stored speed and
lies in the closed range 8994..14034; the intermediate product clamp * 480 is
at most 2880000, so it cannot overflow a 32-bit `int`. -/
theorem C19_tacho_monotone (s1 s2 : Nat) (h12 : s1 ≤ s2) (h2 : s2 < 65536) :
    speedScaled s1 ≤ speedScaled s2 ∧
    8994 ≤ speedScaled s1 ∧ speedScaled s1 ≤ 14034 ∧
    8994 ≤ speedScaled s2 ∧ speedScaled s2 ≤ 14034 ∧
    0 ≤ speedProduct s1 ∧ speedProduct s1 ≤ 2880000 ∧
    0 ≤ speedProduct s2 ∧ speedProduct s2 ≤ 2880000 ∧
    (bytes17BDFFE0 s1).getD 2 0 * 256 + (bytes17BDFFE0 s1).getD 3 0 = speedScaled s1 ∧
    (bytes17BDFFE0 s2).getD 2 0 * 256 + (bytes17BDFFE0 s2).getD 3 0 = speedScaled s2 := by
  have h1 : s1 < 65536 := by omega
  obtain ⟨a1, a2⟩ := speedScaled_range s1 h1
  obtain ⟨c1, c2⟩ := speedScaled_range s2 h2
  exact ⟨speedScaled_mono s1 s2 h12 h2, a1, a2, c1, c2,
    (speedProduct_range s1 h1).1, (speedProduct_range s1 h1).2,
    (speedProduct_range s2 h2).1, (speedProduct_range s2 h2).2,
    speedScaled_bytes s1 h1, speedScaled_bytes s2 h2⟩

/-- C19 at the stored speeds 3000 and 3001, with values 11154 and 11154. -/
theorem C19_tacho_monotone_witness :
    speedScaled 3000 ≤ speedScaled 3001 ∧ speedProduct 3001 ≤ 2880000 := by
  have h := C19_tacho_monotone 3000 3001 (by decide) (by decide)
  exact ⟨h.1, h.2.2.2.2.2.2.2.2.1⟩

/-- C20: the gear encoder is injective on the ten defined inputs: two calls
from the same transport state with gears among -1, 0, 1, 2, 3 that leave the
same frames sent had the same gear and the same brake state, and no defined
input gives the all-zero payload of an undefined gear. Drive and Sport share
b0 = 0x89; they differ in b7, and with the brake off also in b3; with the
brake on they differ in b7 alone. -/
theorem C20_gear_injective (g g1 : Int) (s s1 : JLR_L322)
    (hg : g = -1 ∨ g = 0 ∨ g = 1 ∨ g = 2 ∨ g = 3)
    (hg1 : g1 = -1 ∨ g1 = 0 ∨ g1 = 1 ∨ g1 = 2 ∨ g1 = 3) :
    (s.can = s1.can → (Msg0979BAB0 g s).can = (Msg0979BAB0 g1 s1).can →
      g = g1 ∧ s.BrakeOn = s1.BrakeOn) ∧
    (bytes0979BAB0 g s.BrakeOn = bytes0979BAB0 g1 s1.BrakeOn →
      g = g1 ∧ s.BrakeOn = s1.BrakeOn) ∧
    bytes0979BAB0 g s.BrakeOn ≠ [0x00, 0x00, 0x00, 0x00, 0x00, 0x00, 0x00, 0x00] ∧
    (bytes0979BAB0 1 s.BrakeOn).getD 0 0 = 0x89 ∧
    (bytes0979BAB0 3 s.BrakeOn).getD 0 0 = 0x89 ∧
    (bytes0979BAB0 1 s.BrakeOn).getD 7 0 = 0x0C ∧
    (bytes0979BAB0 3 s.BrakeOn).getD 7 0 = 0x3C ∧
    (bytes0979BAB0 1 false).getD 3 0 = 0xC7 ∧
    (bytes0979BAB0 3 false).getD 3 0 = 0xB7 ∧
    (bytes0979BAB0 1 true).take 7 = (bytes0979BAB0 3 true).take 7 := by
  have inj : bytes0979BAB0 g s.BrakeOn = bytes0979BAB0 g1 s1.BrakeOn →
      g = g1 ∧ s.BrakeOn = s1.BrakeOn := by
    rcases hg with h | h | h | h | h <;> rcases hg1 with h1 | h1 | h1 | h1 | h1 <;>
      subst h <;> subst h1 <;> cases s.BrakeOn <;> cases s1.BrakeOn <;>
      simp [bytes0979BAB0]
  refine ⟨?_, inj, ?_, ?_, ?_, ?_, ?_, by decide, by decide, by decide⟩
  · intro hc hm
    apply inj
    simp only [Msg0979BAB0, Send, hc, take_of_length _ _ (length_bytes0979BAB0 _ _)] at hm
    have hm2 := List.append_cancel_left hm
    simpa using hm2
  · rcases hg with h | h | h | h | h <;> subst h <;> cases s.BrakeOn <;>
      simp [bytes0979BAB0]
  · cases s.BrakeOn <;> decide
  · cases s.BrakeOn <;> decide
  · cases s.BrakeOn <;> decide
  · cases s.BrakeOn <;> decide

/-- C20 at Drive and Sport with the brake pressed, whose payloads differ in
the last byte only. -/
theorem C20_gear_injective_witness :
    bytes0979BAB0 1 true ≠ bytes0979BAB0 3 true ∧
      bytes0979BAB0 1 true ≠ [0x00, 0x00, 0x00, 0x00, 0x00, 0x00, 0x00, 0x00] := by
  have h := C20_gear_injective 1 3 ⟨0, true, false, true, []⟩ ⟨0, true, false, true, []⟩
    (by decide) (by decide)
  refine ⟨?_, h.2.2.1⟩
  intro e
  have h2 := (h.2.1 e).1
  exact absurd h2 (by decide)

end JLR
